import Mathlib

/-!
# StatVid ingestion pipeline — verification of the specification against the source

Shallow embedding of `src/statvid/ingest/youtube_client.py` and
`src/statvid/ingest/ingest.py`.  Machine-level concerns (HTTP transport,
parquet encoding, pagination tokens) are abstracted into oracle functions
supplied as parameters; everything the claims talk about (chunking, retry
control flow, timestamp windows, normalization coercions, quantile-balanced
selection, and the per-category orchestration) is translated faithfully from
the Python source.
-/

namespace StatVid

/-! ## youtube_client.py : constants -/

/-- `MAX_IDS_PER_CALL = 50` — YouTube Data API limit for id-based list
endpoints. -/
def MAX_IDS_PER_CALL : Nat := 50

/-! ## youtube_client.py : `YouTubeClient._execute`

`_execute` loops `for attempt in range(self.max_retries + 1)`, calling
`request.execute()`.  On an `HttpError` whose `resp.status` is one of
`(403, 500, 503)` and with `attempt < self.max_retries`, it sleeps
`self.backoff_seconds * (2 ** attempt) + random.random()` seconds and
retries; otherwise the exception is re-raised.  The trailing
`raise RuntimeError` after the loop is unreachable: the last iteration
either returns or re-raises.

We model the outcome of the `attempt`-th call by a script
`Nat → ReqOutcome`, the `random.random()` draws by `jitter : Nat → ℚ`
(one draw per sleep, each in `[0,1)`), and collect the sleep durations. -/

/-- Outcome of one `request.execute()` call: a response, or an `HttpError`
carrying `getattr(exc.resp, "status", None)`. -/
inductive ReqOutcome where
  | ok (resp : Nat)
  | err (status : Option Nat)
deriving DecidableEq, Repr

/-- `status in (403, 500, 503)` — the transient statuses retried by
`_execute`.  `None in (403, 500, 503)` is false in Python. -/
def isTransient (status : Option Nat) : Bool :=
  status == some 403 || status == some 500 || status == some 503

/-- The retry loop of `_execute`.  `fuel` is `max_retries - attempt`, so
`fuel = 0` exactly when `attempt < self.max_retries` fails and the
exception propagates.  The result pairs the Python outcome (response or
re-raised `HttpError` status) with the list of sleep durations, in order. -/
def executeAux (script : Nat → ReqOutcome) (backoff : ℚ) (jitter : Nat → ℚ) :
    Nat → Nat → List ℚ → Except (Option Nat) Nat × List ℚ
  | attempt, fuel, sleeps =>
    match script attempt with
    | .ok r => (.ok r, sleeps)
    | .err status =>
      match fuel with
      | 0 => (.error status, sleeps)
      | fuel' + 1 =>
        if isTransient status then
          executeAux script backoff jitter (attempt + 1) fuel'
            (sleeps ++ [backoff * 2 ^ attempt + jitter attempt])
        else
          (.error status, sleeps)

/-- `YouTubeClient._execute(request, label)` with `max_retries` and
`backoff_seconds = backoff`. -/
def execute (script : Nat → ReqOutcome) (maxRetries : Nat) (backoff : ℚ)
    (jitter : Nat → ℚ) : Except (Option Nat) Nat × List ℚ :=
  executeAux script backoff jitter 0 maxRetries []

/-! ## youtube_client.py : `fetch_video_metadata` / `fetch_channel_metadata`

Both methods filter falsy ids (`[vid for vid in video_ids if vid]` — the
empty string is the only falsy `str`), slice the remainder into chunks of
`MAX_IDS_PER_CALL = 50`, issue one `videos().list` / `channels().list`
request per chunk, and extend the result list with each response's
`items`.  The per-chunk response is an oracle `resp`; we return the
concatenated items together with the number of requests issued. -/

/-- Structural worker for `chunks50`.  The fuel only serves termination:
each step consumes at least one element of `l`, so any `fuel ≥ l.length`
computes the full chunk list. -/
def chunks50Aux : Nat → List String → List (List String)
  | 0, _ => []
  | fuel + 1, l => if l = [] then [] else l.take 50 :: chunks50Aux fuel (l.drop 50)

/-- `ids[i : i + 50]` slices for `i = 0, 50, 100, ...`. -/
def chunks50 (l : List String) : List (List String) :=
  chunks50Aux l.length l

/-- The fuel is irrelevant as soon as it dominates the list length. -/
theorem chunks50Aux_fuel (fuel fuel' : Nat) (l : List String)
    (h : l.length ≤ fuel) (h' : l.length ≤ fuel') :
    chunks50Aux fuel l = chunks50Aux fuel' l := by
  induction fuel generalizing fuel' l with
  | zero =>
    have : l = [] := List.eq_nil_of_length_eq_zero (by omega)
    subst this
    cases fuel' <;> simp [chunks50Aux]
  | succ fuel ih =>
    cases fuel' with
    | zero =>
      have : l = [] := List.eq_nil_of_length_eq_zero (by omega)
      subst this
      simp [chunks50Aux]
    | succ fuel' =>
      simp only [chunks50Aux]
      by_cases hl : l = []
      · simp [hl]
      · simp only [hl, if_false]
        have hlen : (l.drop 50).length ≤ fuel := by
          have := List.length_pos.mpr hl
          simp only [List.length_drop]
          omega
        have hlen' : (l.drop 50).length ≤ fuel' := by
          have := List.length_pos.mpr hl
          simp only [List.length_drop]
          omega
        rw [ih fuel' (l.drop 50) hlen hlen']

/-- `YouTubeClient.fetch_video_metadata(video_ids)`: filtered ids are
chunked; one request per chunk; results concatenated in chunk order.
Returns `(items, number of requests issued)`. -/
def fetch_video_metadata {ι : Type} (resp : List String → List ι)
    (video_ids : List String) : List ι × Nat :=
  let ids := video_ids.filter (· ≠ "")
  let cs := chunks50 ids
  ((cs.map resp).flatten, cs.length)

/-- `YouTubeClient.fetch_channel_metadata(channel_ids)`: same body as
`fetch_video_metadata`, against the channels endpoint. -/
def fetch_channel_metadata {ι : Type} (resp : List String → List ι)
    (channel_ids : List String) : List ι × Nat :=
  let ids := channel_ids.filter (· ≠ "")
  let cs := chunks50 ids
  ((cs.map resp).flatten, cs.length)

/-! ### Chunking lemmas -/

theorem chunks50_nil : chunks50 [] = [] := rfl

theorem chunks50_cons (l : List String) (h : l ≠ []) :
    chunks50 l = l.take 50 :: chunks50 (l.drop 50) := by
  have hpos := List.length_pos.mpr h
  obtain ⟨fuel, hfuel⟩ : ∃ fuel, l.length = fuel + 1 := ⟨l.length - 1, by omega⟩
  unfold chunks50
  rw [hfuel]
  simp only [chunks50Aux, h, if_false]
  exact congrArg _ (chunks50Aux_fuel fuel (l.drop 50).length (l.drop 50)
    (by simp only [List.length_drop]; omega) le_rfl)

/-- Strong-induction helper: induct on the length of the list. -/
theorem chunks50_rec {motive : List String → Prop}
    (hnil : motive [])
    (hcons : ∀ l, l ≠ [] → motive (l.drop 50) → motive l) :
    ∀ l, motive l := by
  suffices h : ∀ n (l : List String), l.length ≤ n → motive l from
    fun l => h l.length l le_rfl
  intro n
  induction n with
  | zero =>
    intro l hl
    have : l = [] := List.eq_nil_of_length_eq_zero (by omega)
    subst this
    exact hnil
  | succ n ih =>
    intro l hl
    by_cases h : l = []
    · subst h; exact hnil
    · refine hcons l h (ih (l.drop 50) ?_)
      have := List.length_pos.mpr h
      simp only [List.length_drop]
      omega

/-- The chunks concatenate back to the input list. -/
theorem chunks50_flatten (l : List String) : (chunks50 l).flatten = l := by
  induction l using chunks50_rec with
  | hnil => simp [chunks50_nil]
  | hcons l h ih =>
    rw [chunks50_cons l h]
    simp [ih]

/-- Every chunk is nonempty and has at most 50 elements. -/
theorem chunks50_bounds (l : List String) :
    ∀ c ∈ chunks50 l, c ≠ [] ∧ c.length ≤ 50 := by
  induction l using chunks50_rec with
  | hnil => simp [chunks50_nil]
  | hcons l h ih =>
    rw [chunks50_cons l h]
    intro c hc
    rcases List.mem_cons.mp hc with rfl | hc
    · obtain ⟨a, t, rfl⟩ := List.exists_cons_of_ne_nil h
      exact ⟨by simp, by simpa using List.length_take_le 50 (a :: t)⟩
    · exact ih c hc

/-- The number of chunks is `⌈len/50⌉`. -/
theorem chunks50_length (l : List String) :
    (chunks50 l).length = (l.length + 49) / 50 := by
  induction l using chunks50_rec with
  | hnil => simp [chunks50_nil]
  | hcons l h ih =>
    rw [chunks50_cons l h]
    have hpos : 0 < l.length := List.length_pos.mpr h
    simp only [List.length_cons, ih, List.length_drop]
    rcases Nat.lt_or_ge l.length 51 with hlt | hge
    · have h1 : l.length - 50 = 0 := by omega
      rw [h1]
      have : (l.length + 49) / 50 = 1 := by
        apply Nat.div_eq_of_lt_le <;> omega
      simp [this]
    · have h2 : l.length - 50 + 49 + 50 = l.length + 49 := by omega
      have := Nat.add_div_right (l.length - 50 + 49) (show 0 < 50 by norm_num)
      omega

/-! ### Claim C2 -/

/-- C2 (amended): `fetch_video_metadata`/`fetch_channel_metadata` issue
exactly `⌈len(nonempty ids)/50⌉` batch requests — chunks of at most 50
ids, with empty/falsy ids filtered out first (but *not* deduplicated) —
and return the concatenation of the per-chunk results in chunk order. -/
theorem fetch_metadata_batching {ι : Type} (resp : List String → List ι)
    (ids : List String) :
    (fetch_video_metadata resp ids).2 = ((ids.filter (· ≠ "")).length + 49) / 50 ∧
    (fetch_channel_metadata resp ids).2 = ((ids.filter (· ≠ "")).length + 49) / 50 ∧
    (fetch_video_metadata resp ids).1 =
      ((chunks50 (ids.filter (· ≠ ""))).map resp).flatten ∧
    (fetch_channel_metadata resp ids).1 =
      ((chunks50 (ids.filter (· ≠ ""))).map resp).flatten ∧
    (∀ c ∈ chunks50 (ids.filter (· ≠ "")), c ≠ [] ∧ c.length ≤ 50) ∧
    (chunks50 (ids.filter (· ≠ ""))).flatten = ids.filter (· ≠ "") :=
  ⟨chunks50_length _, chunks50_length _, rfl, rfl, chunks50_bounds _,
    chunks50_flatten _⟩

/-- C2 (counterexample to the claim as stated): the client does *not*
deduplicate ids.  On 51 copies of the same id it issues 2 requests,
although `⌈len(distinct nonempty ids)/50⌉ = ⌈1/50⌉ = 1`. -/
theorem fetch_metadata_distinct_counterexample :
    (fetch_video_metadata (fun _ => ([] : List Unit)) (List.replicate 51 "a")).2 = 2 ∧
    (((List.replicate 51 "a").filter (· ≠ "")).dedup.length + 49) / 50 = 1 := by
  constructor <;> decide

/-! ### Claims C3 and C7 -/

/-- C3: a request failing with a non-transient status (any status outside
`{403, 500, 503}`, e.g. 400 bad request, 401 auth failure, 404 not-found)
is propagated by `_execute` immediately: no retry, no backoff sleep. -/
theorem execute_nontransient_no_retry (script : Nat → ReqOutcome)
    (maxRetries : Nat) (backoff : ℚ) (jitter : Nat → ℚ) (status : Option Nat)
    (hfail : script 0 = .err status) (hnt : isTransient status = false) :
    execute script maxRetries backoff jitter = (.error status, []) := by
  unfold execute
  cases maxRetries with
  | zero => simp [executeAux, hfail]
  | succ n => simp [executeAux, hfail, hnt]

theorem execute_nontransient_no_retry_witness :
    execute (fun _ => .err (some 404)) 3 (3 / 2) (fun _ => 0) =
      (.error (some 404), []) :=
  execute_nontransient_no_retry _ 3 (3 / 2) _ (some 404) rfl rfl

/-- C7: with `max_retries = 3`, a request failing twice with transient
statuses and succeeding on the third attempt yields the successful
response, after exactly two sleeps of `backoff * 2^k + jitter k` seconds
(`k = 0, 1`). -/
theorem execute_two_transient_then_success (script : Nat → ReqOutcome)
    (backoff : ℚ) (jitter : Nat → ℚ) (r : Nat) (s0 s1 : Option Nat)
    (h0 : script 0 = .err s0) (h1 : script 1 = .err s1) (h2 : script 2 = .ok r)
    (ht0 : isTransient s0 = true) (ht1 : isTransient s1 = true) :
    execute script 3 backoff jitter =
      (.ok r, [backoff * 2 ^ 0 + jitter 0, backoff * 2 ^ 1 + jitter 1]) := by
  unfold execute
  simp [executeAux, h0, h1, h2, ht0, ht1]

theorem execute_two_transient_then_success_witness :
    execute
        (fun n => if n = 0 then .err (some 500) else
          if n = 1 then .err (some 503) else .ok 7)
        3 (3 / 2) (fun _ => 0) =
      (.ok 7, [3 / 2 * 2 ^ 0 + 0, 3 / 2 * 2 ^ 1 + 0]) :=
  execute_two_transient_then_success _ (3 / 2) _ 7 (some 500) (some 503)
    rfl rfl rfl rfl rfl

/-! ## ingest.py : `_pick_balanced_channels`

```python
def _pick_balanced_channels(df: pd.DataFrame, target: int) -> pd.DataFrame:
    if df.empty:
        return df
    work = df.copy()
    bins = min(5, max(1, work["subscriberCount"].nunique()))
    work["sub_bucket"] = pd.qcut(
        work["subscriberCount"].rank(method="first"),
        q=bins, labels=False, duplicates="drop")
    selections = []
    per_bucket = max(1, target // max(1, work["sub_bucket"].nunique()))
    for bucket in sorted(work["sub_bucket"].dropna().unique()):
        bucket_df = work[work["sub_bucket"] == bucket]
                        .sort_values("subscriberCount", ascending=False)
        selections.append(bucket_df.head(per_bucket))
    chosen = pd.concat(selections, ignore_index=True) if selections else ...
    if len(chosen) < target:
        remaining = work.drop(chosen.index, errors="ignore")
                        .sort_values("subscriberCount", ascending=False)
        chosen = pd.concat([chosen, remaining.head(target - len(chosen))],
                           ignore_index=True)
    return chosen.head(target).drop(columns=["sub_bucket"], errors="ignore")
```

The caller (`_discover_category`) passes `pd.DataFrame(activity_rows)`,
whose index is the default `RangeIndex 0..n-1`; we model a dataframe as a
list of rows and carry that positional index explicitly, because the
backfill's `work.drop(chosen.index, ...)` uses it: after
`pd.concat(..., ignore_index=True)`, `chosen.index` is `RangeIndex
0..len(chosen)-1`, so the drop removes the *first* `len(chosen)` rows of
`work`, not the chosen ones.

`rank(method="first")` ranks ascending by value, ties broken by order of
appearance: the rank of row `i` is `1 + #{j | v_j < v_i} + #{j < i | v_j
= v_i}` — one plus the number of rows strictly below `(v_i, i)` in the
lexicographic order on (value, position).

`qcut(ranks, q=b, labels=False, duplicates="drop")`: the ranks are the
distinct values `1..n`, so the quantile bin edges are
`e_j = 1 + j*(n-1)/b` (linear interpolation), which are strictly
increasing whenever `b ≤ n` and `n ≥ 2`, so `duplicates="drop"` removes
nothing.  A rank `r ≥ 2` lands in the bucket `j` with
`e_j < r ≤ e_{j+1}`, i.e. `j = ⌈(r-1)·b/(n-1)⌉ - 1 = ((r-1)·b - 1)/(n-1)`
in integer arithmetic; rank `1` (the left edge) lands in bucket `0` via
`include_lowest`.  For `n = 1` the single row gets bucket `0` (pandas
keeps the two equal edges when `len(bins) == 2`).

`sort_values(..., ascending=False)` uses an unstable quicksort, so the
relative order of rows with *equal* subscriber counts is unspecified; we
fix the stable order.  None of the theorems below depends on the order
among equal keys. -/

/-- Strict "rank before" order on (position, value) pairs used by
`rank(method="first")`: ascending value, ties by position of first
appearance. -/
def keyLt (a b : Nat × Int) : Prop :=
  a.2 < b.2 ∨ (a.2 = b.2 ∧ a.1 < b.1)

instance : DecidableRel keyLt := fun a b => by
  unfold keyLt
  infer_instance

/-- The rank of the pair `p` among the pairs `L`: one plus the number of
pairs ranked strictly before it. -/
def rankOf (L : List (Nat × Int)) (p : Nat × Int) : Nat :=
  1 + L.countP fun q => decide (keyLt q p)

/-- `Series.rank(method="first")` on the values, as a list aligned with
the input. -/
def rankFirst (vals : List Int) : List Nat :=
  vals.enum.map (rankOf vals.enum)

/-- The `qcut` bucket label of rank `r` among ranks `1..n` cut into `b`
quantile bins (see the header comment for the derivation). -/
def bucketOf (n b r : Nat) : Nat :=
  if r ≤ 1 then 0 else ((r - 1) * b - 1) / (n - 1)

/-- `bins = min(5, max(1, nunique(subscriberCount)))`. -/
def binsOf (vals : List Int) : Nat :=
  min 5 (max 1 vals.dedup.length)

/-- A row of the working dataframe `work`: its positional index (the
default `RangeIndex`), the row payload, and its `sub_bucket` label. -/
structure WorkRow (α : Type) where
  idx : Nat
  row : α
  bucket : Nat
deriving Repr, DecidableEq

/-- `work` with the `sub_bucket` column attached. -/
def mkWork {α : Type} (subsOf : α → Int) (df : List α) : List (WorkRow α) :=
  (df.enum.zip (rankFirst (df.map subsOf))).map fun p =>
    ⟨p.1.1, p.1.2, bucketOf df.length (binsOf (df.map subsOf)) p.2⟩

/-- `sort_values("subscriberCount", ascending=False)` (stable order among
equal keys). -/
def sortDescBy {α : Type} (key : α → Int) (l : List α) : List α :=
  l.insertionSort fun a b => key b ≤ key a

/-- `sorted(work["sub_bucket"].dropna().unique())` — no label is ever NaN
here (see header comment), so `dropna()` is the identity. -/
def sortedLabels {α : Type} (work : List (WorkRow α)) : List Nat :=
  ((work.map (·.bucket)).dedup).insertionSort (· ≤ ·)

/-- `per_bucket = max(1, target // max(1, work["sub_bucket"].nunique()))`. -/
def perBucketOf {α : Type} (work : List (WorkRow α)) (target : Nat) : Nat :=
  max 1 (target / max 1 (work.map (·.bucket)).dedup.length)

/-- The pre-backfill selection `chosen`: for each bucket label in
ascending order, the top `per_bucket` rows by descending subscriber
count. -/
def pickBalancedChosen {α : Type} (subsOf : α → Int) (df : List α)
    (target : Nat) : List (WorkRow α) :=
  (sortedLabels (mkWork subsOf df)).flatMap fun j =>
    (sortDescBy (fun wr => subsOf wr.row)
      ((mkWork subsOf df).filter fun wr => wr.bucket = j)).take
      (perBucketOf (mkWork subsOf df) target)

/-- `remaining.head(target - len(chosen))` of the backfill step.
`work.drop(chosen.index, errors="ignore")`: after the
`ignore_index=True` concat, `chosen.index` is `RangeIndex
0..len(chosen)-1`, so the drop removes the rows of `work` whose
positional label lies in `0..len(chosen)-1` — not the chosen rows. -/
def pickBalancedBackfill {α : Type} (subsOf : α → Int) (df : List α)
    (target : Nat) : List (WorkRow α) :=
  (sortDescBy (fun wr => subsOf wr.row)
    ((mkWork subsOf df).filter fun wr =>
      (pickBalancedChosen subsOf df target).length ≤ wr.idx)).take
    (target - (pickBalancedChosen subsOf df target).length)

/-- `chosen` after the conditional backfill. -/
def pickBalancedFinal {α : Type} (subsOf : α → Int) (df : List α)
    (target : Nat) : List (WorkRow α) :=
  if (pickBalancedChosen subsOf df target).length < target then
    pickBalancedChosen subsOf df target ++ pickBalancedBackfill subsOf df target
  else pickBalancedChosen subsOf df target

/-- `_pick_balanced_channels(df, target)`: `chosen.head(target)` with the
`sub_bucket` column dropped. -/
def pickBalanced {α : Type} (subsOf : α → Int) (df : List α)
    (target : Nat) : List α :=
  match df with
  | [] => df
  | _ :: _ => ((pickBalancedFinal subsOf df target).take target).map (·.row)

/-- A channel row, reduced to the fields the selector reads. -/
structure Chan where
  id : String
  subs : Int
deriving Repr, DecidableEq

/-! ### Membership lemmas for the selector -/

theorem mem_mkWork {α : Type} (subsOf : α → Int) (df : List α)
    (wr : WorkRow α) (h : wr ∈ mkWork subsOf df) : wr.row ∈ df := by
  unfold mkWork at h
  simp only [List.mem_map] at h
  obtain ⟨p, hp, rfl⟩ := h
  have h1 : p.1 ∈ df.enum := (List.of_mem_zip hp).1
  have h2 := List.mem_enum_iff_getElem?.mp h1
  exact List.getElem?_mem h2

theorem mem_pickBalancedChosen {α : Type} (subsOf : α → Int) (df : List α)
    (target : Nat) (wr : WorkRow α) (h : wr ∈ pickBalancedChosen subsOf df target) :
    wr ∈ mkWork subsOf df := by
  unfold pickBalancedChosen at h
  simp only [List.mem_flatMap] at h
  obtain ⟨j, _, hwr⟩ := h
  have h1 := List.mem_of_mem_take hwr
  have h2 := (List.perm_insertionSort _ _).subset h1
  exact (List.mem_filter.mp h2).1

theorem mem_pickBalancedFinal {α : Type} (subsOf : α → Int) (df : List α)
    (target : Nat) (wr : WorkRow α) (h : wr ∈ pickBalancedFinal subsOf df target) :
    wr ∈ mkWork subsOf df := by
  unfold pickBalancedFinal at h
  by_cases hlt : (pickBalancedChosen subsOf df target).length < target
  · rw [if_pos hlt] at h
    rcases List.mem_append.mp h with h' | h'
    · exact mem_pickBalancedChosen subsOf df target wr h'
    · unfold pickBalancedBackfill at h'
      have h1 := List.mem_of_mem_take h'
      have h2 := (List.perm_insertionSort _ _).subset h1
      exact (List.mem_filter.mp h2).1
  · rw [if_neg hlt] at h
    exact mem_pickBalancedChosen subsOf df target wr h

/-! ### Rank and bucket machinery

`rank(method="first")` assigns the ranks `1..n` bijectively: the rank of
a pair is one plus the number of pairs strictly before it in the strict
linear order `keyLt`, and the pairs of `vals.enum` have pairwise
distinct positions, so distinct pairs are `keyLt`-comparable. -/

theorem keyLt_irrefl (a : Nat × Int) : ¬ keyLt a a := by
  unfold keyLt
  omega

theorem keyLt_trans {a b c : Nat × Int} (h1 : keyLt a b) (h2 : keyLt b c) :
    keyLt a c := by
  unfold keyLt at *
  omega

theorem keyLt_total_of_fst_ne {a b : Nat × Int} (h : a.1 ≠ b.1) :
    keyLt a b ∨ keyLt b a := by
  unfold keyLt
  omega

/-- `countP` of a duplicate-free list as a `Finset` cardinality. -/
theorem countP_eq_card_filter_of_nodup {β : Type} [DecidableEq β]
    (l : List β) (hnd : l.Nodup) (p : β → Bool) :
    l.countP p = (l.toFinset.filter (fun x => p x)).card := by
  rw [← List.toFinset_filter]
  rw [List.card_toFinset, List.Nodup.dedup (hnd.filter p)]
  exact (List.countP_eq_length_filter p l).symm ▸ rfl

theorem rankOf_strict_mono {L : List (Nat × Int)} (hnd : L.Nodup)
    {p q : Nat × Int} (hp : p ∈ L) (hlt : keyLt p q) :
    rankOf L p < rankOf L q := by
  unfold rankOf
  have hcard := countP_eq_card_filter_of_nodup L hnd
  rw [hcard, hcard]
  have hss : L.toFinset.filter (fun x => decide (keyLt x p)) ⊂
      L.toFinset.filter (fun x => decide (keyLt x q)) := by
    constructor
    · intro x hx
      rw [Finset.mem_filter] at hx ⊢
      exact ⟨hx.1, by
        have := of_decide_eq_true hx.2
        exact decide_eq_true (keyLt_trans this hlt)⟩
    · intro hsub
      have hpq : p ∈ L.toFinset.filter (fun x => decide (keyLt x q)) := by
        rw [Finset.mem_filter]
        exact ⟨List.mem_toFinset.mpr hp, decide_eq_true hlt⟩
      have hpp := hsub hpq
      rw [Finset.mem_filter] at hpp
      exact keyLt_irrefl p (of_decide_eq_true hpp.2)
  have := Finset.card_lt_card hss
  omega

theorem rankOf_pos (L : List (Nat × Int)) (p : Nat × Int) : 1 ≤ rankOf L p := by
  unfold rankOf
  omega

theorem rankOf_le_length {L : List (Nat × Int)} (hnd : L.Nodup)
    {p : Nat × Int} (hp : p ∈ L) : rankOf L p ≤ L.length := by
  unfold rankOf
  rw [countP_eq_card_filter_of_nodup L hnd]
  have hsub : L.toFinset.filter (fun x => decide (keyLt x p)) ⊆
      L.toFinset.erase p := by
    intro x hx
    rw [Finset.mem_filter] at hx
    rw [Finset.mem_erase]
    exact ⟨fun he => keyLt_irrefl p (of_decide_eq_true (he ▸ hx.2)), hx.1⟩
  have h1 := Finset.card_le_card hsub
  have h2 : (L.toFinset.erase p).card = L.toFinset.card - 1 :=
    Finset.card_erase_of_mem (List.mem_toFinset.mpr hp)
  have h3 : L.toFinset.card = L.length := by
    rw [List.card_toFinset, List.Nodup.dedup hnd]
  have h4 : 0 < L.toFinset.card :=
    Finset.card_pos.mpr ⟨p, List.mem_toFinset.mpr hp⟩
  omega

/-- The pairs of `l.enum` are duplicate-free. -/
theorem nodup_enum {β : Type} (l : List β) : l.enum.Nodup :=
  List.Nodup.of_map Prod.fst (List.nodup_enum_map_fst l)

/-- Distinct pairs of `l.enum` have distinct positions. -/
theorem enum_fst_injOn {β : Type} (l : List β) :
    ∀ p ∈ l.enum, ∀ q ∈ l.enum, p.1 = q.1 → p = q :=
  List.inj_on_of_nodup_map (by
    rw [List.enum_map_fst]
    exact List.nodup_range _)

theorem rankFirst_length (vals : List Int) :
    (rankFirst vals).length = vals.length := by
  simp [rankFirst]

theorem rankFirst_nodup (vals : List Int) : (rankFirst vals).Nodup := by
  unfold rankFirst
  refine List.Nodup.map_on ?_ (nodup_enum vals)
  intro p hp q hq heq
  by_contra hne
  have hfst : p.1 ≠ q.1 := fun h => hne (enum_fst_injOn vals p hp q hq h)
  rcases keyLt_total_of_fst_ne hfst with hlt | hlt
  · exact absurd heq (Nat.ne_of_lt (rankOf_strict_mono (nodup_enum vals) hp hlt))
  · exact absurd heq.symm (Nat.ne_of_lt (rankOf_strict_mono (nodup_enum vals) hq hlt))

/-- `(l.map f).toFinset = l.toFinset.image f`. -/
theorem toFinset_map_eq_image {β γ : Type} [DecidableEq β] [DecidableEq γ]
    (f : β → γ) (l : List β) : (l.map f).toFinset = l.toFinset.image f := by
  ext x
  simp

/-- The ranks are exactly `{1, ..., n}`. -/
theorem rankFirst_toFinset (vals : List Int) :
    (rankFirst vals).toFinset = Finset.Icc 1 vals.length := by
  apply Finset.eq_of_subset_of_card_le
  · intro r hr
    rw [List.mem_toFinset] at hr
    unfold rankFirst at hr
    rw [List.mem_map] at hr
    obtain ⟨p, hp, rfl⟩ := hr
    rw [Finset.mem_Icc]
    refine ⟨rankOf_pos _ _, ?_⟩
    have := rankOf_le_length (nodup_enum vals) hp
    simpa using this
  · rw [Nat.card_Icc]
    rw [List.card_toFinset, List.Nodup.dedup (rankFirst_nodup vals),
      rankFirst_length]
    omega

/-- Every rank in `1..n` falls in a bucket `< b` (when `1 ≤ b ≤ n`). -/
theorem bucketOf_lt {n b r : Nat} (hb : 1 ≤ b) (hbn : b ≤ n)
    (hr1 : 1 ≤ r) (hrn : r ≤ n) : bucketOf n b r < b := by
  unfold bucketOf
  by_cases h1 : r ≤ 1
  · simpa [h1] using hb
  · rw [if_neg h1]
    rw [Nat.div_lt_iff_lt_mul (by omega : 0 < n - 1)]
    have hmul : (r - 1) * b ≤ (n - 1) * b :=
      Nat.mul_le_mul_right b (by omega)
    have hone : 1 ≤ (r - 1) * b := by
      have := Nat.mul_le_mul (show 1 ≤ r - 1 by omega) hb
      omega
    have hcomm : (n - 1) * b = b * (n - 1) := Nat.mul_comm _ _
    omega

/-- Every bucket `j < b` is hit by some rank in `1..n` (when
`1 ≤ b ≤ n`). -/
theorem bucketOf_surj {n b j : Nat} (hb : 1 ≤ b) (hbn : b ≤ n)
    (hj : j < b) : ∃ r, 1 ≤ r ∧ r ≤ n ∧ bucketOf n b r = j := by
  rcases Nat.eq_zero_or_pos j with rfl | hj1
  · exact ⟨1, le_rfl, by omega, by simp [bucketOf]⟩
  have hn2 : 2 ≤ n := by omega
  rcases Nat.lt_or_ge b n with hblt | hbge
  · -- b ≤ n - 1 : take r = j*(n-1)/b + 2
    have hd := Nat.zero_le (j * (n - 1) / b)
    refine ⟨j * (n - 1) / b + 2, by omega, ?_, ?_⟩
    · -- r ≤ n ⟺ j*(n-1)/b ≤ n-2
      have h1 : j * (n - 1) ≤ (b - 1) * (n - 1) :=
        Nat.mul_le_mul_right _ (by omega)
      have h2 : (b - 1) * (n - 1) ≤ b * (n - 2) := by
        rcases Nat.exists_eq_add_of_le hb with ⟨b', hb'⟩
        rcases Nat.exists_eq_add_of_le hn2 with ⟨n', hn'⟩
        subst hb' hn'
        have hbn' : b' ≤ n' := by omega
        have e1 : 1 + b' - 1 = b' := by omega
        have e2 : 2 + n' - 1 = n' + 1 := by omega
        have e3 : 2 + n' - 2 = n' := by omega
        rw [e1, e2, e3]
        have r1 : b' * (n' + 1) = b' * n' + b' := by ring
        have r2 : (1 + b') * n' = n' + b' * n' := by ring
        omega
      have h3 : j * (n - 1) / b ≤ b * (n - 2) / b :=
        Nat.div_le_div_right (le_trans h1 h2)
      rw [Nat.mul_div_cancel_left _ (by omega : 0 < b)] at h3
      omega
    · -- bucketOf = j
      unfold bucketOf
      rw [if_neg (by omega : ¬ (j * (n - 1) / b + 2 ≤ 1))]
      have hq := Nat.div_add_mod (j * (n - 1)) b
      have hmod := Nat.mod_lt (j * (n - 1)) (by omega : 0 < b)
      set q := j * (n - 1) / b with hqdef
      have hqb : (q + 1) * b = b * q + b := by ring
      have hA1 : j * (n - 1) < (q + 1) * b := by omega
      have hA2 : (q + 1) * b ≤ (j + 1) * (n - 1) := by
        have hexp : (j + 1) * (n - 1) = j * (n - 1) + (n - 1) := by ring
        omega
      have he : q + 2 - 1 = q + 1 := by omega
      rw [he]
      have lo : j * (n - 1) ≤ (q + 1) * b - 1 := by omega
      have hi : (q + 1) * b - 1 < (j + 1) * (n - 1) := by
        have hpos : 1 ≤ (q + 1) * b := by
          have := Nat.mul_le_mul (show 1 ≤ q + 1 by omega) hb
          omega
        omega
      exact Nat.div_eq_of_lt_le lo hi
  · -- b = n : take r = j + 1, bucket is (j*b - 1)/(b-1) = j
    have hbe : b = n := by omega
    subst hbe
    refine ⟨j + 1, by omega, by omega, ?_⟩
    unfold bucketOf
    rw [if_neg (by omega : ¬ (j + 1 ≤ 1))]
    have he : j + 1 - 1 = j := by omega
    rw [he]
    have h1 : j * (b - 1) = j * b - j := by
      rcases Nat.exists_eq_add_of_le hb with ⟨b', hb'⟩
      subst hb'
      have e : 1 + b' - 1 = b' := by omega
      rw [e]
      have e2 : j * (1 + b') = j + j * b' := by ring
      omega
    have h2 : j ≤ j * b := Nat.le_mul_of_pos_right j (by omega)
    have hexp : (j + 1) * (b - 1) = j * b + b - j - 1 := by
      rcases Nat.exists_eq_add_of_le hb with ⟨b', hb'⟩
      subst hb'
      have e : 1 + b' - 1 = b' := by omega
      rw [e]
      have e1 : (j + 1) * b' = j * b' + b' := by ring
      have e2 : j * (1 + b') = j + j * b' := by ring
      omega
    have h3 : 1 ≤ j * b := by
      have := Nat.mul_le_mul hj1 hb
      omega
    have lo : j * (b - 1) ≤ j * b - 1 := by omega
    have hi : j * b - 1 < (j + 1) * (b - 1) := by omega
    exact Nat.div_eq_of_lt_le lo hi

/-! ### Bucket labels of the working dataframe -/

theorem mkWork_map_bucket {α : Type} (subsOf : α → Int) (df : List α) :
    (mkWork subsOf df).map (·.bucket)
      = (rankFirst (df.map subsOf)).map
          (bucketOf df.length (binsOf (df.map subsOf))) := by
  unfold mkWork
  rw [List.map_map]
  have hlen : (rankFirst (df.map subsOf)).length ≤ df.enum.length := by
    rw [rankFirst_length]
    simp
  have hsnd := List.map_snd_zip df.enum (rankFirst (df.map subsOf)) hlen
  calc (df.enum.zip (rankFirst (df.map subsOf))).map
        ((fun wr => wr.bucket) ∘ fun p =>
          (⟨p.1.1, p.1.2, bucketOf df.length (binsOf (df.map subsOf)) p.2⟩ :
            WorkRow α))
      = (df.enum.zip (rankFirst (df.map subsOf))).map
          (bucketOf df.length (binsOf (df.map subsOf)) ∘ Prod.snd) := rfl
    _ = ((df.enum.zip (rankFirst (df.map subsOf))).map Prod.snd).map
          (bucketOf df.length (binsOf (df.map subsOf))) := by
        rw [List.map_map]
    _ = (rankFirst (df.map subsOf)).map
          (bucketOf df.length (binsOf (df.map subsOf))) := by rw [hsnd]

theorem mkWork_length {α : Type} (subsOf : α → Int) (df : List α) :
    (mkWork subsOf df).length = df.length := by
  unfold mkWork
  rw [List.length_map, List.length_zip, List.enum_length, rankFirst_length,
    List.length_map, Nat.min_self]

/-- The number of distinct bucket labels is exactly
`min(5, nunique(subscriberCount))`. -/
theorem mkWork_bucket_count {α : Type} (subsOf : α → Int) (df : List α)
    (h : df ≠ []) :
    ((mkWork subsOf df).map (·.bucket)).dedup.length
      = min 5 ((df.map subsOf).dedup.length) := by
  have hvlen : (df.map subsOf).length = df.length := by simp
  have hne : df.map subsOf ≠ [] := by
    simp only [ne_eq, List.map_eq_nil_iff]
    exact h
  have hd : (df.map subsOf).dedup ≠ [] :=
    fun hd => hne ((List.dedup_eq_nil _).mp hd)
  have hnu1 : 1 ≤ (df.map subsOf).dedup.length := List.length_pos.mpr hd
  have hbins : binsOf (df.map subsOf) = min 5 (df.map subsOf).dedup.length := by
    unfold binsOf
    rw [Nat.max_eq_right hnu1]
  have hb1 : 1 ≤ binsOf (df.map subsOf) := by
    rw [hbins]
    exact le_min (by norm_num) hnu1
  have hbn : binsOf (df.map subsOf) ≤ df.length := by
    rw [hbins]
    calc min 5 (df.map subsOf).dedup.length
        ≤ (df.map subsOf).dedup.length := min_le_right _ _
      _ ≤ (df.map subsOf).length := (List.dedup_sublist _).length_le
      _ = df.length := hvlen
  rw [mkWork_map_bucket, ← List.card_toFinset, toFinset_map_eq_image,
    rankFirst_toFinset, hvlen]
  have himg : (Finset.Icc 1 df.length).image
        (bucketOf df.length (binsOf (df.map subsOf)))
      = Finset.range (binsOf (df.map subsOf)) := by
    apply Finset.Subset.antisymm
    · intro x hx
      rw [Finset.mem_image] at hx
      obtain ⟨r, hr, rfl⟩ := hx
      rw [Finset.mem_Icc] at hr
      exact Finset.mem_range.mpr (bucketOf_lt hb1 hbn hr.1 hr.2)
    · intro x hx
      rw [Finset.mem_range] at hx
      obtain ⟨r, hr1, hr2, hr3⟩ := bucketOf_surj hb1 hbn hx
      rw [Finset.mem_image]
      exact ⟨r, Finset.mem_Icc.mpr ⟨hr1, hr2⟩, hr3⟩
  rw [himg, Finset.card_range, hbins]

theorem sortedLabels_perm {α : Type} (work : List (WorkRow α)) :
    List.Perm (sortedLabels work) ((work.map (·.bucket)).dedup) :=
  List.perm_insertionSort _ _

theorem sortedLabels_length {α : Type} (work : List (WorkRow α)) :
    (sortedLabels work).length = (work.map (·.bucket)).dedup.length :=
  (sortedLabels_perm work).length_eq

theorem sortedLabels_nodup {α : Type} (work : List (WorkRow α)) :
    (sortedLabels work).Nodup :=
  (sortedLabels_perm work).nodup_iff.mpr (List.nodup_dedup _)

/-! ### Per-bucket contributions to `chosen` -/

theorem countP_flatMap_zero {β : Type} (t : List Nat) (sel : Nat → List β)
    (p : β → Bool) (h : ∀ k ∈ t, (sel k).countP p = 0) :
    (t.flatMap sel).countP p = 0 := by
  induction t with
  | nil => simp
  | cons a t ih =>
    simp only [List.flatMap_cons, List.countP_append]
    rw [h a (List.mem_cons_self a t),
      ih (fun k hk => h k (List.mem_cons_of_mem a hk))]

/-- `countP` over a `flatMap` indexed by duplicate-free labels, when only
the label `j` can contribute. -/
theorem countP_flatMap_unique {β : Type} (labels : List Nat)
    (hnd : labels.Nodup) (j : Nat) (hj : j ∈ labels) (sel : Nat → List β)
    (p : β → Bool) (hzero : ∀ k ∈ labels, k ≠ j → (sel k).countP p = 0) :
    (labels.flatMap sel).countP p = (sel j).countP p := by
  induction labels with
  | nil => cases hj
  | cons a t ih =>
    simp only [List.flatMap_cons, List.countP_append]
    rcases List.mem_cons.mp hj with rfl | hjt
    · have hz : ∀ k ∈ t, (sel k).countP p = 0 := fun k hk =>
        hzero k (List.mem_cons_of_mem _ hk)
          (fun he => (List.nodup_cons.mp hnd).1 (he ▸ hk))
      rw [countP_flatMap_zero t sel p hz]
      omega
    · have ha : (sel a).countP p = 0 :=
        hzero a (List.mem_cons_self _ _)
          (fun he => (List.nodup_cons.mp hnd).1 (he ▸ hjt))
      rw [ha, ih (List.nodup_cons.mp hnd).2 hjt
        (fun k hk hne => hzero k (List.mem_cons_of_mem _ hk) hne)]
      omega

theorem sortDescBy_length {α : Type} (key : α → Int) (l : List α) :
    (sortDescBy key l).length = l.length := by
  unfold sortDescBy
  exact (List.perm_insertionSort _ _).length_eq

/-- Every row of a bucket-`j` selection slice carries the label `j`. -/
theorem bucket_take_all {α : Type} (subsOf : α → Int)
    (work : List (WorkRow α)) (j m : Nat) :
    ∀ wr ∈ (sortDescBy (fun wr => subsOf wr.row)
        (work.filter fun wr => wr.bucket = j)).take m,
      wr.bucket = j := by
  intro wr hwr
  have h1 := List.mem_of_mem_take hwr
  have h2 := (List.perm_insertionSort _ _).subset h1
  exact of_decide_eq_true (List.mem_filter.mp h2).2

/-- The bucket-`j` slice contributes `min(per_bucket, size of bucket j)`
rows. -/
theorem bucket_take_countP {α : Type} (subsOf : α → Int)
    (work : List (WorkRow α)) (j m : Nat) :
    ((sortDescBy (fun wr => subsOf wr.row)
        (work.filter fun wr => wr.bucket = j)).take m).countP
      (fun wr => wr.bucket = j)
      = min m (work.countP fun wr => wr.bucket = j) := by
  have hall := List.countP_eq_length.mpr
    (fun wr hwr => decide_eq_true (bucket_take_all subsOf work j m wr hwr))
  rw [hall, List.length_take]
  congr 1
  rw [sortDescBy_length]
  exact (List.countP_eq_length_filter _ _).symm

/-- Slices of other buckets contribute nothing to bucket `j`'s count. -/
theorem bucket_take_countP_ne {α : Type} (subsOf : α → Int)
    (work : List (WorkRow α)) (j k m : Nat) (hne : k ≠ j) :
    ((sortDescBy (fun wr => subsOf wr.row)
        (work.filter fun wr => wr.bucket = k)).take m).countP
      (fun wr => wr.bucket = j) = 0 := by
  rw [List.countP_eq_zero]
  intro wr hwr
  have := bucket_take_all subsOf work k m wr hwr
  simp only [decide_eq_true_eq]
  omega

/-- The descending sort dominance: every kept row has a subscriber count
at least that of every cut row. -/
theorem sortDescBy_take_drop {α : Type} (key : α → Int) (l : List α)
    (m : Nat) :
    ∀ x ∈ (sortDescBy key l).take m, ∀ y ∈ (sortDescBy key l).drop m,
      key y ≤ key x := by
  haveI : IsTotal α (fun a b => key b ≤ key a) :=
    ⟨fun a b => le_total (key b) (key a)⟩
  haveI : IsTrans α (fun a b => key b ≤ key a) :=
    ⟨fun a b c hab hbc => le_trans hbc hab⟩
  have hs : List.Sorted (fun a b => key b ≤ key a) (sortDescBy key l) :=
    List.sorted_insertionSort _ l
  have hp : List.Pairwise (fun a b => key b ≤ key a)
      ((sortDescBy key l).take m ++ (sortDescBy key l).drop m) := by
    rw [List.take_append_drop]
    exact hs
  exact fun x hx y hy => (List.pairwise_append.mp hp).2.2 x hx y hy

/-! ### Claim C1 -/

/-- C1 (amended): for every candidate list and target,
`_pick_balanced_channels` returns at most `target` rows and every
returned row is one of the input candidates.  (Uniqueness of channel
identifiers does *not* hold: see the counterexample.) -/
theorem pick_balanced_le_target_and_subset {α : Type} (subsOf : α → Int)
    (df : List α) (target : Nat) :
    (pickBalanced subsOf df target).length ≤ target ∧
    ∀ x ∈ pickBalanced subsOf df target, x ∈ df := by
  constructor
  · cases df with
    | nil => simp [pickBalanced]
    | cons a l =>
      simp only [pickBalanced, List.length_map]
      exact le_trans (List.length_take_le _ _) le_rfl
  · cases df with
    | nil => simp [pickBalanced]
    | cons a l =>
      intro x hx
      simp only [pickBalanced, List.mem_map] at hx
      obtain ⟨wr, hwr, rfl⟩ := hx
      exact mem_mkWork subsOf (a :: l) wr
        (mem_pickBalancedFinal subsOf (a :: l) target wr (List.mem_of_mem_take hwr))

/-- The six-candidate input on which the backfill step re-adds an
already-chosen row: distinct subscriber counts 10..60, target 6. -/
def dupExample : List Chan :=
  [⟨"c0", 10⟩, ⟨"c1", 20⟩, ⟨"c2", 30⟩, ⟨"c3", 40⟩, ⟨"c4", 50⟩, ⟨"c5", 60⟩]

/-- C1 (counterexample to the claim as stated): on `dupExample` with
`target = 6`, the 5 quantile buckets contribute one row each (bucket 0
holds rows 0 and 1; row 1 is chosen), so `chosen` has 5 rows with
positional labels `{1,2,3,4,5}` in `work`; the backfill drops labels
`0..4` and re-adds row 5, so channel `"c5"` appears twice in the
result. -/
theorem pick_balanced_duplicate_counterexample :
    pickBalanced Chan.subs dupExample 6 =
      [⟨"c1", 20⟩, ⟨"c2", 30⟩, ⟨"c3", 40⟩, ⟨"c4", 50⟩, ⟨"c5", 60⟩, ⟨"c5", 60⟩] ∧
    ¬ ((pickBalanced Chan.subs dupExample 6).map Chan.id).Nodup := by
  constructor <;> decide

/-! ### Claim C4 -/

/-- C4 (amended): for every non-empty candidate list,
`_pick_balanced_channels` forms exactly `min(5, number of distinct
subscriberCount values)` quantile buckets (ties broken by the stable
first-occurrence rank), and before backfill each non-empty bucket
contributes exactly `min(its size, max(1, target // bucket_count))`
candidates — the quota is `max(1, ...)`, not plain
`floor(target / bucket_count)` — ranked by descending subscriberCount
(every contributed row's count dominates every cut row's count of the
same bucket). -/
theorem pick_balanced_buckets {α : Type} (subsOf : α → Int) (df : List α)
    (target : Nat) (h : df ≠ []) :
    (sortedLabels (mkWork subsOf df)).length
        = min 5 ((df.map subsOf).dedup.length) ∧
    perBucketOf (mkWork subsOf df) target
        = max 1 (target / (sortedLabels (mkWork subsOf df)).length) ∧
    ∀ j ∈ sortedLabels (mkWork subsOf df),
      (pickBalancedChosen subsOf df target).countP (fun wr => wr.bucket = j)
          = min (perBucketOf (mkWork subsOf df) target)
              ((mkWork subsOf df).countP fun wr => wr.bucket = j) ∧
      ∀ x ∈ (sortDescBy (fun wr => subsOf wr.row)
              ((mkWork subsOf df).filter fun wr => wr.bucket = j)).take
              (perBucketOf (mkWork subsOf df) target),
        ∀ y ∈ (sortDescBy (fun wr => subsOf wr.row)
                ((mkWork subsOf df).filter fun wr => wr.bucket = j)).drop
                (perBucketOf (mkWork subsOf df) target),
          subsOf y.row ≤ subsOf x.row := by
  have hcount := mkWork_bucket_count subsOf df h
  have hlen := sortedLabels_length (mkWork subsOf df)
  have hwork_ne : mkWork subsOf df ≠ [] := by
    intro he
    have := mkWork_length subsOf df
    rw [he] at this
    exact h (List.eq_nil_of_length_eq_zero this.symm)
  have hdedup_pos : 1 ≤ ((mkWork subsOf df).map (·.bucket)).dedup.length := by
    apply List.length_pos.mpr
    intro he
    have h1 := (List.dedup_eq_nil _).mp he
    have h2 := List.map_eq_nil_iff.mp h1
    exact hwork_ne h2
  refine ⟨hlen.trans hcount, ?_, ?_⟩
  · unfold perBucketOf
    rw [hlen, Nat.max_eq_right hdedup_pos]
  · intro j hj
    constructor
    · unfold pickBalancedChosen
      rw [countP_flatMap_unique (sortedLabels (mkWork subsOf df))
        (sortedLabels_nodup _) j hj _ _
        (fun k _ hk => bucket_take_countP_ne subsOf (mkWork subsOf df) j k _ hk)]
      exact bucket_take_countP subsOf (mkWork subsOf df) j _
    · exact sortDescBy_take_drop _ _ _

theorem pick_balanced_buckets_witness :
    dupExample ≠ [] ∧
    (sortedLabels (mkWork Chan.subs dupExample)).length
        = min 5 ((dupExample.map Chan.subs).dedup.length) ∧
    ∀ j ∈ sortedLabels (mkWork Chan.subs dupExample),
      (pickBalancedChosen Chan.subs dupExample 6).countP
          (fun wr => wr.bucket = j)
        = min (perBucketOf (mkWork Chan.subs dupExample) 6)
            ((mkWork Chan.subs dupExample).countP fun wr => wr.bucket = j) := by
  have hne : dupExample ≠ [] := by decide
  have h := pick_balanced_buckets Chan.subs dupExample 6 hne
  exact ⟨hne, h.1, fun j hj => (h.2.2 j hj).1⟩

/-- The five-candidate input refuting the plain-`floor` quota: five
distinct subscriber counts give five buckets; with `target = 3`,
`floor(3/5) = 0`, yet each bucket (here bucket `0`) contributes one
candidate because the code uses `max(1, target // buckets)`. -/
def floorExample : List Chan :=
  [⟨"a", 10⟩, ⟨"b", 20⟩, ⟨"c", 30⟩, ⟨"d", 40⟩, ⟨"e", 50⟩]

/-- C4 (counterexample to the claim as stated): on `floorExample` with
`target = 3` there are 5 non-empty buckets and
`floor(target / buckets) = 0`, but bucket `0` (non-empty, size 1)
contributes `1 ≠ 0` candidates to the pre-backfill selection. -/
theorem pick_balanced_floor_counterexample :
    (sortedLabels (mkWork Chan.subs floorExample)).length = 5 ∧
    (mkWork Chan.subs floorExample).countP (fun wr => wr.bucket = 0) = 1 ∧
    (3 : Nat) / (sortedLabels (mkWork Chan.subs floorExample)).length = 0 ∧
    (pickBalancedChosen Chan.subs floorExample 3).countP
      (fun wr => wr.bucket = 0) = 1 := by
  refine ⟨?_, ?_, ?_, ?_⟩ <;> decide

/-! ## ingest.py : `_normalize_channels_df`

```python
df = pd.json_normalize(channel_items)
if "statistics.subscriberCount" in df.columns:
    df["subscriberCount"] = pd.to_numeric(df["statistics.subscriberCount"],
        errors="coerce").fillna(0).astype(int)
else:
    df["subscriberCount"] = 0
# videoCount: same; country: copied or "" if the column is absent;
# uploads_playlist_id: copied or None if the column is absent.
```

A source field is either absent, present but not parseable as a number
(`to_numeric(errors="coerce")` → NaN), or a number; `astype(int)`
truncation of floats is folded into the numeric value.  A column is
absent exactly when *no* item carries the field; an item missing a field
of a present column gets NaN, which `fillna(0)` also sends to 0 — so the
numeric coercion is per-item.  The `country` column, by contrast, is
copied without `fillna`: an item without `snippet.country` keeps NaN
(`none`) when some other item has the field, but gets `""` when the
whole column is absent. -/

/-- A raw numeric-ish source field. -/
inductive RawField where
  | missing
  | nonNumeric
  | numeric (n : Int)
deriving DecidableEq, Repr

/-- `to_numeric(..., errors="coerce").fillna(0).astype(int)` applied to
one field. -/
def coerceCount : RawField → Int
  | .numeric n => n
  | _ => 0

/-- A raw channel item, reduced to the fields the normalizer reads. -/
structure RawChannel where
  id : String
  subscriberCount : RawField
  videoCount : RawField
  country : Option String
  uploadsPlaylist : Option String
deriving DecidableEq, Repr

/-- A normalized channel row. -/
structure ChannelRow where
  id : String
  subscriberCount : Int
  videoCount : Int
  country : Option String
  uploads_playlist_id : Option String
deriving DecidableEq, Repr

/-- `_normalize_channels_df(channel_items)` (the normalized columns; the
other `json_normalize` columns are untouched pass-throughs). -/
def _normalize_channels_df (items : List RawChannel) : List ChannelRow :=
  items.map fun it =>
    { id := it.id
      subscriberCount := coerceCount it.subscriberCount
      videoCount := coerceCount it.videoCount
      country :=
        if items.all fun x => x.country = none then some "" else it.country
      uploads_playlist_id := it.uploadsPlaylist }

/-! ### Claim C5 -/

/-- C5 (amended): every record produced by the channel normalizer has
integer (never null) subscriberCount and videoCount; absent or
unparseable source values become 0; and the counts are non-negative
*provided* every numeric source value is non-negative — a negative
numeric source value is passed through unchanged (see the
counterexample). -/
theorem normalize_channels_counts (items : List RawChannel)
    (hs : ∀ it ∈ items, ∀ n, it.subscriberCount = RawField.numeric n → 0 ≤ n)
    (hv : ∀ it ∈ items, ∀ n, it.videoCount = RawField.numeric n → 0 ≤ n) :
    ∀ row ∈ _normalize_channels_df items,
      0 ≤ row.subscriberCount ∧ 0 ≤ row.videoCount ∧
      (∀ it ∈ items, row.id = it.id →
        (it.subscriberCount = RawField.missing ∨
         it.subscriberCount = RawField.nonNumeric) →
        coerceCount it.subscriberCount = 0) := by
  intro row hrow
  unfold _normalize_channels_df at hrow
  rw [List.mem_map] at hrow
  obtain ⟨it, hit, rfl⟩ := hrow
  refine ⟨?_, ?_, ?_⟩
  · show 0 ≤ coerceCount it.subscriberCount
    cases hsc : it.subscriberCount with
    | numeric n => simpa [coerceCount] using hs it hit n hsc
    | missing => simp [coerceCount]
    | nonNumeric => simp [coerceCount]
  · show 0 ≤ coerceCount it.videoCount
    cases hsc : it.videoCount with
    | numeric n => simpa [coerceCount] using hv it hit n hsc
    | missing => simp [coerceCount]
    | nonNumeric => simp [coerceCount]
  · intro it' _ _ h
    rcases h with h | h <;> simp [h, coerceCount]

/-- A channel item whose subscriber count is the numeric string `"-5"`:
`pd.to_numeric` parses it to `-5`, which survives
`.fillna(0).astype(int)` unchanged. -/
def negChannelExample : List RawChannel :=
  [⟨"neg", .numeric (-5), .nonNumeric, none, none⟩]

/-- C5 (counterexample to the claim as stated): the normalizer outputs a
*negative* subscriberCount for a negative numeric source value. -/
theorem normalize_channels_negative_counterexample :
    ((_normalize_channels_df negChannelExample).map (·.subscriberCount))
        = [-5] ∧
    ((_normalize_channels_df negChannelExample).map (·.videoCount)) = [0] ∧
    ∃ row ∈ _normalize_channels_df negChannelExample,
      row.subscriberCount < 0 := by
  refine ⟨by decide, by decide, ?_⟩
  exact ⟨⟨"neg", -5, 0, some "", none⟩, by decide, by decide⟩

/-- A small concrete normalizer input: a numeric subscriber count with a
missing video count, and an unparseable subscriber count with a numeric
video count. -/
def normExampleItems : List RawChannel :=
  [⟨"x", .numeric 5, .missing, none, none⟩,
   ⟨"y", .nonNumeric, .numeric 0, some "US", some "UU1"⟩]

theorem normalize_channels_counts_witness :
    (∀ row ∈ _normalize_channels_df normExampleItems,
      0 ≤ row.subscriberCount ∧ 0 ≤ row.videoCount ∧
      (∀ it ∈ normExampleItems,
        row.id = it.id →
        (it.subscriberCount = RawField.missing ∨
         it.subscriberCount = RawField.nonNumeric) →
        coerceCount it.subscriberCount = 0)) ∧
    ((_normalize_channels_df normExampleItems).map (·.subscriberCount))
        = [5, 0] :=
  ⟨normalize_channels_counts normExampleItems
    (by
      intro it hit n hn
      rcases List.mem_cons.mp hit with rfl | hit'
      · simp only [RawField.numeric.injEq] at hn
        omega
      · rcases List.mem_cons.mp hit' with rfl | hit''
        · simp at hn
        · cases hit'')
    (by
      intro it hit n hn
      rcases List.mem_cons.mp hit with rfl | hit'
      · simp at hn
      · rcases List.mem_cons.mp hit' with rfl | hit''
        · simp only [RawField.numeric.injEq] at hn
          omega
        · cases hit''),
   by decide⟩

/-! ## ingest.py : `_parse_published_at` and `_count_recent_uploads`

```python
def _parse_published_at(published_at):
    if not published_at:
        return None
    try:
        return datetime.fromisoformat(published_at.replace("Z", "+00:00"))
    except ValueError:
        return None

def _count_recent_uploads(uploads, *, lookback_days):
    threshold = datetime.now(timezone.utc) - timedelta(days=lookback_days)
    count = 0
    video_ids = []
    for video in uploads:
        published_at = (video.get("contentDetails", {}).get("videoPublishedAt")
                        or video.get("snippet", {}).get("publishedAt"))
        dt = _parse_published_at(published_at)
        if dt and dt >= threshold:
            count += 1
            vid_id = video.get("contentDetails", {}).get("videoId")
            if vid_id:
                video_ids.append(vid_id)
    return count, video_ids
```

Timestamps are modelled as integers (epoch seconds, UTC); a raw
timestamp string is absent (`dict.get` → `None`), empty (`""`, falsy),
truthy-but-unparseable (`ValueError`), or valid.  `a or b` takes `b`
exactly when `a` is falsy.  A parsed datetime is never falsy, so
`if dt and dt >= threshold` is `dt is not None and dt >= threshold`. -/

/-- A raw ISO-8601 timestamp field. -/
inductive RawTs where
  | absent
  | emptyStr
  | invalid
  | valid (t : Int)
deriving DecidableEq, Repr

/-- Python falsiness of the raw field (`None` and `""`). -/
def tsFalsy : RawTs → Bool
  | .absent => true
  | .emptyStr => true
  | _ => false

/-- Python `a or b`. -/
def orFalsy (a b : RawTs) : RawTs :=
  if tsFalsy a then b else a

/-- `_parse_published_at`. -/
def _parse_published_at : RawTs → Option Int
  | .valid t => some t
  | _ => none

/-- A playlist item, reduced to the fields the calculator reads. -/
structure UploadItem where
  videoPublishedAt : RawTs
  publishedAt : RawTs
  videoId : Option String
deriving DecidableEq, Repr

/-- The resolved publish timestamp: content-level field first, falling
back to the snippet-level field when the former is falsy, then parsed. -/
def resolvedTs (it : UploadItem) : Option Int :=
  _parse_published_at (orFalsy it.videoPublishedAt it.publishedAt)

/-- The truthy video id (`if vid_id:`), if any. -/
def truthyVideoId (it : UploadItem) : Option String :=
  match it.videoId with
  | some v => if v ≠ "" then some v else none
  | none => none

/-- One loop iteration of `_count_recent_uploads`. -/
def recentStep (now : Int) (lookback_days : Nat)
    (acc : Nat × List String) (video : UploadItem) : Nat × List String :=
  match resolvedTs video with
  | some dt =>
    if now - lookback_days * 86400 ≤ dt then
      (acc.1 + 1,
        acc.2 ++ (match truthyVideoId video with
          | some v => [v]
          | none => []))
    else acc
  | none => acc

/-- `_count_recent_uploads(uploads, lookback_days=...)` at current time
`now` (seconds); `threshold = now - lookback_days * 86400`. -/
def _count_recent_uploads (now : Int) (uploads : List UploadItem)
    (lookback_days : Nat) : Nat × List String :=
  uploads.foldl (recentStep now lookback_days) (0, [])

/-- Decidable "counts toward the window": the resolved timestamp exists
and is at or after the threshold. -/
def isRecent (now : Int) (lookback_days : Nat) (it : UploadItem) : Bool :=
  (resolvedTs it).any fun dt => now - lookback_days * 86400 ≤ dt

theorem count_recent_foldl (now : Int) (lookback_days : Nat)
    (uploads : List UploadItem) (c : Nat) (ids : List String) :
    uploads.foldl (recentStep now lookback_days) (c, ids)
      = (c + (uploads.filter (isRecent now lookback_days)).length,
         ids ++ (uploads.filter (isRecent now lookback_days)).filterMap
           truthyVideoId) := by
  induction uploads generalizing c ids with
  | nil => simp
  | cons v t ih =>
    simp only [List.foldl_cons]
    by_cases hv : isRecent now lookback_days v = true
    · have hstep : recentStep now lookback_days (c, ids) v
          = (c + 1, ids ++ (match truthyVideoId v with
              | some w => [w]
              | none => [])) := by
        unfold isRecent at hv
        unfold recentStep
        cases hr : resolvedTs v with
        | none => rw [hr] at hv; simp at hv
        | some dt =>
          rw [hr] at hv
          simp only [Option.any_some] at hv
          have hc : now - (lookback_days : Int) * 86400 ≤ dt :=
            of_decide_eq_true hv
          simp [hc]
      rw [hstep, ih, Prod.mk.injEq]
      constructor
      · rw [List.filter_cons_of_pos hv, List.length_cons]
        omega
      · rw [List.filter_cons_of_pos hv, List.filterMap_cons]
        cases htv : truthyVideoId v with
        | none => simp
        | some w => simp
    · have hstep : recentStep now lookback_days (c, ids) v = (c, ids) := by
        unfold isRecent at hv
        unfold recentStep
        cases hr : resolvedTs v with
        | none => simp
        | some dt =>
          rw [hr] at hv
          simp only [Option.any_some] at hv
          have hc : ¬ (now - (lookback_days : Int) * 86400 ≤ dt) := by
            simpa using hv
          simp [hc]
      rw [hstep, ih, List.filter_cons_of_neg hv]

/-! ### Claim C6 -/

/-- C6: `_count_recent_uploads` counts an item iff its resolvable
publish timestamp (content-level field first, snippet-level fallback) is
at or after `now - lookback_days`; items with no resolvable timestamp
are skipped without error; and the counted items' truthy video ids are
collected preserving input order. -/
theorem count_recent_uploads_spec (now : Int) (uploads : List UploadItem)
    (lookback_days : Nat) :
    (_count_recent_uploads now uploads lookback_days).1
        = (uploads.filter (isRecent now lookback_days)).length ∧
    (_count_recent_uploads now uploads lookback_days).2
        = (uploads.filter (isRecent now lookback_days)).filterMap
            truthyVideoId := by
  unfold _count_recent_uploads
  rw [count_recent_foldl]
  exact ⟨by simp, by simp⟩

/-! ## youtube_client.py : `get_uploads_playlist_id`

```python
resp = self._execute(req, "channels.list(contentDetails)")
items = resp.get("items", [])
if not items:
    return None
return items[0]["contentDetails"]["relatedPlaylists"]["uploads"]
```

The final line uses bracket indexing, not `.get`: a missing key at any
level of the path raises `KeyError`.  We record only whether the full
path `contentDetails.relatedPlaylists.uploads` is present in an item. -/

/-- Python errors surfaced by the ingestion paths. -/
inductive PyError where
  | attributeError (name : String)
  | valueError (msg : String)
  | keyError
deriving DecidableEq, Repr

/-- One item of the `channels().list(part="contentDetails")` response:
`uploads = some v` iff the nested path
`contentDetails.relatedPlaylists.uploads` is fully present with value
`v`. -/
structure ChannelContentItem where
  uploads : Option String
deriving DecidableEq, Repr

/-- `get_uploads_playlist_id` applied to the response's `items`. -/
def get_uploads_playlist_id (items : List ChannelContentItem) :
    Except PyError (Option String) :=
  match items with
  | [] => .ok none
  | it :: _ =>
    match it.uploads with
    | some v => .ok (some v)
    | none => .error .keyError

/-! ## ingest.py : `ingest_channel` / `ingest_videos`

`ingest_channel` calls `client.search_channel_uploads`, then
`client.get_uploads_playlist_id`, and then evaluates

```python
playlist_items = (
    client.fetch_playlist_items(
        uploads_playlist_id,
        page_size=min(limit, client.page_max),
        max_pages=max(1, (limit + client.page_max - 1) // client.page_max),
    )
    if uploads_playlist_id
    else []
)
```

The instance attributes assigned by `YouTubeClient.__init__` are
`api_key`, `max_retries`, `backoff_seconds`, `_service_obj` and `log`
(the chunk size is the *module* constant `MAX_IDS_PER_CALL`), so the
attribute lookup `client.page_max` raises `AttributeError` — but only
when `uploads_playlist_id` is truthy, because Python evaluates the
conditional expression's `if`-arm lazily.  Artifacts: the uploads
parquet, then `ingest_videos` (which raises `ValueError` on an empty
metadata result, else writes the videos parquet). -/

/-- Bronze artifacts written by the pipeline. -/
inductive Artifact where
  | search (categoryId : Nat)
  | channels (categoryId : Nat)
  | uploads (channelId : String)
  | selection (categoryId : Nat)
  | videos
  | combined
deriving DecidableEq, Repr

/-- Python truthiness of an optional string (`None` and `""` falsy). -/
def truthyStr : Option String → Bool
  | some s => s ≠ ""
  | none => false

/-- The environment for one `ingest_channel` run: the
`channels().list(contentDetails)` response items, the playlist-items
pages (pagination folded into the oracle), and the per-chunk
`videos().list` responses. -/
structure IngestEnv where
  channelsListItems : List ChannelContentItem
  playlistItems : String → List UploadItem
  videoResp : List String → List Nat

/-- The attributes assigned on a `YouTubeClient` instance. -/
def YouTubeClientAttrs : List String :=
  ["api_key", "max_retries", "backoff_seconds", "_service_obj", "log"]

/-- Python attribute lookup on the client (`None` = `AttributeError`). -/
def clientGetattr (name : String) : Option Unit :=
  if name ∈ YouTubeClientAttrs then some () else none

/-- `search_channel_uploads(channel_id, limit)`: uploads playlist lookup,
then up to `limit` truthy video ids in playlist order. -/
def search_channel_uploads (env : IngestEnv) (limit : Nat) :
    Except PyError (List String) :=
  match get_uploads_playlist_id env.channelsListItems with
  | .error e => .error e
  | .ok upid =>
    if truthyStr upid then
      .ok (((env.playlistItems (upid.getD "")).filterMap truthyVideoId).take limit)
    else .ok []

/-- `ingest_videos(video_ids, ...)`: fetch metadata (chunked, §C2) and
write the videos parquet; an empty result raises `ValueError`. -/
def ingest_videos (env : IngestEnv) (video_ids : List String) :
    Except PyError (List Artifact) :=
  if (fetch_video_metadata env.videoResp video_ids).1 = [] then
    .error (.valueError "No video metadata returned.")
  else .ok [.videos]

/-- `ingest_channel(channel_id, limit, ...)`; the returned artifact list
records the parquet writes that happened. -/
def ingest_channel (env : IngestEnv) (channel_id : String) (limit : Nat) :
    Except PyError (List Artifact) :=
  match search_channel_uploads env limit with
  | .error e => .error e
  | .ok video_ids =>
    match get_uploads_playlist_id env.channelsListItems with
    | .error e => .error e
    | .ok upid =>
      if truthyStr upid then
        -- `min(limit, client.page_max)` is evaluated first
        match clientGetattr "page_max" with
        | none => .error (.attributeError "page_max")
        | some _ =>
          -- dead code for the actual attribute table: were the attribute
          -- present, the code would fetch the playlist and proceed
          match ingest_videos env video_ids with
          | .error e => .error e
          | .ok arts => .ok (Artifact.uploads channel_id :: arts)
      else
        match ingest_videos env video_ids with
        | .error e => .error e
        | .ok arts => .ok (Artifact.uploads channel_id :: arts)

/-! ### Claim C9 -/

/-- C9: whenever the uploads playlist id is found (truthy),
`ingest_channel` raises `AttributeError` on `client.page_max` before the
playlist-items fetch at its own call site, writing nothing; consequently
`ingest_channel` can only complete for channels whose uploads playlist
id is `None`/empty. -/
theorem ingest_channel_page_max (env : IngestEnv) (channel_id : String)
    (limit : Nat) :
    (∀ upid, get_uploads_playlist_id env.channelsListItems = .ok upid →
      truthyStr upid = true →
      ingest_channel env channel_id limit
        = .error (.attributeError "page_max")) ∧
    (∀ arts, ingest_channel env channel_id limit = .ok arts →
      ∃ upid, get_uploads_playlist_id env.channelsListItems = .ok upid ∧
        truthyStr upid = false) := by
  have hattr : clientGetattr "page_max" = none := by decide
  constructor
  · intro upid hup htr
    unfold ingest_channel search_channel_uploads
    rw [hup]
    simp [htr, hattr]
  · intro arts harts
    unfold ingest_channel search_channel_uploads at harts
    cases hup : get_uploads_playlist_id env.channelsListItems with
    | error e => rw [hup] at harts; simp at harts
    | ok upid =>
      rw [hup] at harts
      by_cases htr : truthyStr upid = true
      · simp [htr, hattr] at harts
      · exact ⟨upid, rfl, by simpa using htr⟩

theorem ingest_channel_page_max_witness :
    ingest_channel ⟨[⟨some "UU123"⟩], fun _ => [], fun _ => []⟩ "UC123" 100
      = .error (.attributeError "page_max") :=
  (ingest_channel_page_max ⟨[⟨some "UU123"⟩], fun _ => [], fun _ => []⟩
    "UC123" 100).1 (some "UU123") rfl rfl

/-! ### Claim C10 -/

/-- C10: `get_uploads_playlist_id` returns `None` exactly when the
response's item list is empty; an item lacking the nested
`contentDetails.relatedPlaylists.uploads` path raises `KeyError` rather
than returning `None`. -/
theorem get_uploads_playlist_id_spec (items : List ChannelContentItem) :
    (get_uploads_playlist_id items = .ok none ↔ items = []) ∧
    (∀ it rest, items = it :: rest → it.uploads = none →
      get_uploads_playlist_id items = .error .keyError) := by
  constructor
  · constructor
    · intro h
      cases items with
      | nil => rfl
      | cons it rest =>
        unfold get_uploads_playlist_id at h
        cases hu : it.uploads with
        | some v => simp [hu] at h
        | none => simp [hu] at h
    · intro h
      subst h
      rfl
  · intro it rest hitems hu
    subst hitems
    simp [get_uploads_playlist_id, hu]

theorem get_uploads_playlist_id_spec_witness :
    get_uploads_playlist_id [⟨none⟩] = .error .keyError ∧
    get_uploads_playlist_id [] = .ok none :=
  ⟨(get_uploads_playlist_id_spec [⟨none⟩]).2 ⟨none⟩ [] rfl rfl,
   (get_uploads_playlist_id_spec []).1.mpr rfl⟩

/-! ## ingest.py : `_discover_category` and `discover_channels`

`_discover_category` is the per-category pipeline:
search → dedup channel ids → overfetch-truncate → batch channel lookup →
normalize → filter (subscribers ≥ threshold, uploads playlist present,
country == "US") → per-candidate activity check → balanced selection →
persist.  It returns `None` (a warning, not an error) when the search
yields no ids, when no candidate survives the filter, or when no
candidate passes the activity threshold; the selection parquet is
written only on success.  `discover_channels` loops over the category
map, collects the non-`None` selections, raises
`RuntimeError("No channels selected across categories.")` when all
categories came back empty, and otherwise concatenates the selections
and writes the combined parquet.

Network responses are oracles in `CategoryEnv`; the search parameters
(`region_code`, `max_pages`, `order`, `published_after`) are folded into
the oracle's search result.  We track the parquet writes as a list of
`Artifact`s in execution order. -/

/-- One search result item (only `snippet.channelId` is read). -/
structure SearchItem where
  channelId : Option String
deriving DecidableEq, Repr

/-- First-occurrence deduplication (the `seen`-set loop). -/
def dedupFirst (l : List String) : List String :=
  l.foldl (fun acc x => if x ∈ acc then acc else acc ++ [x]) []

/-- DEDUP_CHANNEL_IDS: extract truthy channel ids in first-seen order. -/
def extractChannelIds (items : List SearchItem) : List String :=
  dedupFirst (items.filterMap fun it =>
    match it.channelId with
    | some c => if c ≠ "" then some c else none
    | none => none)

/-- The per-category remote responses. -/
structure CategoryEnv where
  searchItems : List SearchItem
  channelMeta : List String → List RawChannel
  playlistItems : String → List UploadItem

/-- The tunable thresholds of `discover_channels` (defaults 50, 10000,
10, 365, 4 in the source). -/
structure DiscoverParams where
  per_category : Nat
  min_subscribers : Int
  min_uploads_last_year : Nat
  lookback_days : Nat
  overfetch_factor : Nat
deriving DecidableEq, Repr

/-- OVERFETCH_LOOKUP: ids truncated to
`max(per_category * overfetch_factor, len(ids))`. -/
def categoryChannelIds (env : CategoryEnv) (P : DiscoverParams) : List String :=
  (extractChannelIds env.searchItems).take
    (max (P.per_category * P.overfetch_factor)
      (extractChannelIds env.searchItems).length)

/-- FILTER_ELIGIBLE: normalized channels with enough subscribers, an
uploads playlist, and US country (after `fillna("")`). -/
def categoryCandidates (env : CategoryEnv) (P : DiscoverParams) :
    List ChannelRow :=
  (_normalize_channels_df (env.channelMeta (categoryChannelIds env P))).filter
    fun c => P.min_subscribers ≤ c.subscriberCount ∧
      c.uploads_playlist_id.isSome ∧ c.country.getD "" = "US"

/-- A selected row: the channel plus `uploads_last_year` and
`recent_video_ids`. -/
structure ActivityRow where
  channel : ChannelRow
  uploads_last_year : Nat
  recent_video_ids : List String
deriving DecidableEq, Repr

/-- ACTIVITY_CHECK: per candidate, fetch its uploads playlist, count the
recent uploads, and keep the candidates meeting the activity
threshold. -/
def categoryActivityRows (env : CategoryEnv) (now : Int)
    (P : DiscoverParams) : List ActivityRow :=
  ((categoryCandidates env P).map fun c =>
    ({ channel := c
       uploads_last_year :=
         (_count_recent_uploads now
           (env.playlistItems (c.uploads_playlist_id.getD ""))
           P.lookback_days).1
       recent_video_ids :=
         (_count_recent_uploads now
           (env.playlistItems (c.uploads_playlist_id.getD ""))
           P.lookback_days).2 } : ActivityRow)).filter
    fun a => P.min_uploads_last_year ≤ a.uploads_last_year

/-- The uploads parquet written per candidate during the activity loop
(written whether or not the candidate passes). -/
def categoryUploadWrites (env : CategoryEnv) (P : DiscoverParams) :
    List Artifact :=
  (categoryCandidates env P).map fun c => Artifact.uploads c.id

/-- `_discover_category(category_id, ...)`: the optional selection and
the artifacts written, in order. -/
def _discover_category (env : CategoryEnv) (categoryId : Nat) (now : Int)
    (P : DiscoverParams) : Option (List ActivityRow) × List Artifact :=
  if extractChannelIds env.searchItems = [] then
    (none, [.search categoryId])
  else if categoryCandidates env P = [] then
    (none, [.search categoryId, .channels categoryId])
  else if categoryActivityRows env now P = [] then
    (none, [.search categoryId, .channels categoryId] ++
      categoryUploadWrites env P)
  else
    (some (pickBalanced (fun r => r.channel.subscriberCount)
        (categoryActivityRows env now P) P.per_category),
     [.search categoryId, .channels categoryId] ++
       categoryUploadWrites env P ++ [.selection categoryId])

/-- The selections collected by the loop in `discover_channels`. -/
def discoverSelections (envs : List (Nat × CategoryEnv)) (now : Int)
    (P : DiscoverParams) : List (List ActivityRow) :=
  envs.filterMap fun e => (_discover_category e.2 e.1 now P).1

/-- All artifacts written by the per-category runs, in order. -/
def discoverWrites (envs : List (Nat × CategoryEnv)) (now : Int)
    (P : DiscoverParams) : List Artifact :=
  (envs.map fun e => (_discover_category e.2 e.1 now P).2).flatten

/-- `discover_channels(...)` over the configured categories `envs`:
either the concatenated selection table (with the combined parquet
appended to the writes) or the fatal `RuntimeError`. -/
def discover_channels (envs : List (Nat × CategoryEnv)) (now : Int)
    (P : DiscoverParams) :
    Except String (List ActivityRow) × List Artifact :=
  if discoverSelections envs now P = [] then
    (.error "No channels selected across categories.",
     discoverWrites envs now P)
  else
    (.ok (discoverSelections envs now P).flatten,
     discoverWrites envs now P ++ [.combined])

/-! ### Claim C8 -/

/-- A category whose result is `None` writes no selection artifact, and
no category run ever writes the combined artifact. -/
theorem discover_category_writes (env : CategoryEnv) (categoryId : Nat)
    (now : Int) (P : DiscoverParams) :
    ((_discover_category env categoryId now P).1 = none →
      ∀ c, Artifact.selection c ∉ (_discover_category env categoryId now P).2) ∧
    Artifact.combined ∉ (_discover_category env categoryId now P).2 := by
  unfold _discover_category
  split_ifs with h1 h2 h3
  · constructor
    · intro _ c
      simp
    · simp
  · constructor
    · intro _ c
      simp
    · simp
  · constructor
    · intro _ c
      simp [categoryUploadWrites]
    · simp [categoryUploadWrites]
  · constructor
    · intro hnone
      simp at hnone
    · simp [categoryUploadWrites]

/-- C8: if every configured category yields no result, the run fails
with the fatal `RuntimeError` and writes neither a per-category
selection artifact nor the combined artifact; if at least one category
yields a result, the run succeeds and the combined table is the
concatenation of exactly the successful categories' selections — an
empty category is merely excluded. -/
theorem discover_channels_all_or_some (envs : List (Nat × CategoryEnv))
    (now : Int) (P : DiscoverParams) :
    ((∀ e ∈ envs, (_discover_category e.2 e.1 now P).1 = none) →
      (discover_channels envs now P).1
          = Except.error "No channels selected across categories." ∧
      (∀ c, Artifact.selection c ∉ (discover_channels envs now P).2) ∧
      Artifact.combined ∉ (discover_channels envs now P).2) ∧
    ((∃ e ∈ envs, ((_discover_category e.2 e.1 now P).1).isSome) →
      (discover_channels envs now P).1
          = Except.ok ((envs.filterMap fun e =>
              (_discover_category e.2 e.1 now P).1).flatten)) := by
  constructor
  · intro hall
    have hsel : discoverSelections envs now P = [] := by
      unfold discoverSelections
      rw [List.filterMap_eq_nil_iff]
      exact fun e he => hall e he
    have hwr : ∀ a ∈ discoverWrites envs now P,
        (∀ c, a ≠ Artifact.selection c) ∧ a ≠ Artifact.combined := by
      intro a ha
      unfold discoverWrites at ha
      rw [List.mem_flatten] at ha
      obtain ⟨w, hw, haw⟩ := ha
      rw [List.mem_map] at hw
      obtain ⟨e, he, rfl⟩ := hw
      have hcat := discover_category_writes e.2 e.1 now P
      constructor
      · intro c hc
        exact hcat.1 (hall e he) c (hc ▸ haw)
      · intro hc
        exact hcat.2 (hc ▸ haw)
    unfold discover_channels
    rw [if_pos hsel]
    refine ⟨rfl, ?_, ?_⟩
    · intro c hc
      exact ((hwr _ hc).1 c) rfl
    · intro hc
      exact (hwr _ hc).2 rfl
  · intro hex
    have hsel : discoverSelections envs now P ≠ [] := by
      unfold discoverSelections
      intro hnil
      rw [List.filterMap_eq_nil_iff] at hnil
      obtain ⟨e, he, hsome⟩ := hex
      rw [hnil e he] at hsome
      simp at hsome
    unfold discover_channels
    rw [if_neg hsel]
    rfl

/-- A run in which every category's search comes back empty. -/
def envAllEmpty : List (Nat × CategoryEnv) :=
  [(2, ⟨[], fun _ => [], fun _ => []⟩), (15, ⟨[], fun _ => [], fun _ => []⟩)]

/-- A run with one empty category and one category producing a
selection. -/
def envOneGood : List (Nat × CategoryEnv) :=
  [(2, ⟨[], fun _ => [], fun _ => []⟩),
   (15, ⟨[⟨some "UC1"⟩],
         fun _ => [⟨"UC1", .numeric 20000, .numeric 5, some "US", some "UU1"⟩],
         fun _ => [⟨.valid 0, .absent, some "v1"⟩]⟩)]

def exampleParams : DiscoverParams := ⟨50, 10000, 1, 365, 4⟩

theorem discover_channels_all_or_some_witness :
    (discover_channels envAllEmpty 0 exampleParams).1
        = Except.error "No channels selected across categories." ∧
    (∀ c, Artifact.selection c ∉ (discover_channels envAllEmpty 0 exampleParams).2) ∧
    Artifact.combined ∉ (discover_channels envAllEmpty 0 exampleParams).2 ∧
    (discover_channels envOneGood 0 exampleParams).1
        = Except.ok ((envOneGood.filterMap fun e =>
            (_discover_category e.2 e.1 0 exampleParams).1).flatten) := by
  have h1 := (discover_channels_all_or_some envAllEmpty 0
    exampleParams).1 (by decide)
  have h2 := (discover_channels_all_or_some envOneGood 0
    exampleParams).2 (by decide)
  exact ⟨h1.1, h1.2.1, h1.2.2, h2⟩

end StatVid
